import Mathlib

/-!
Shallow embedding of the `sqlitediff` package (src/sqlitediff) in Lean 4,
together with proofs about its schema-diffing behaviour.

Python dictionaries are embedded as insertion-ordered association lists
(`List (String × α)`), matching CPython's insertion-ordered `dict`.
Python `set` values (column constraints, table constraints, table options)
are embedded as `List String` compared up to membership (`setEq`).
Where the source iterates over a Python `set` of keys (whose iteration
order is unspecified), the embedding determinizes to insertion order of
the left operand.  Functions that raise exceptions are embedded into
`Except String`.
-/

set_option autoImplicit false

namespace SqliteDiff

/-- Ordered-dictionary key list (`dict.keys()`). -/
def keys {α : Type} (l : List (String × α)) : List String :=
  l.map Prod.fst

/-- Ordered-dictionary value list (`dict.values()`). -/
def values {α : Type} (l : List (String × α)) : List α :=
  l.map Prod.snd

/-- Membership test on a key list (`key in keys`). -/
def memb (k : String) : List String → Bool
  | [] => false
  | x :: rest => if x = k then true else memb k rest

/-- Ordered-dictionary lookup (`d[k]`, as an `Option`). -/
def dlookup {α : Type} : List (String × α) → String → Option α
  | [], _ => none
  | p :: rest, k => if p.1 = k then some p.2 else dlookup rest k

/-- Embedding of `_dict_diff(new, old)` from diff.py: a copy of `new` with
every key of `old` removed, retaining the insertion order of `new`. -/
def dictDiff {α : Type} (new : List (String × α)) (oldKeys : List String) :
    List (String × α) :=
  new.filter (fun p => !(memb p.1 oldKeys))

/-- Key intersection `new.keys() & old.keys()`, determinized to the
insertion order of `new` (Python set iteration order is unspecified). -/
def keysInter {α β : Type} (new : List (String × α)) (old : List (String × β)) :
    List String :=
  (keys new).filter (fun k => memb k (keys old))

/-- Python set equality on the `List String` embedding of a `set`. -/
def setEq (a b : List String) : Bool :=
  a.all (fun x => memb x b) && b.all (fun x => memb x a)

/-- Embedding of `schema.Column` (dataclass): raw name, optional declared
type, and the set of constraint clause strings. -/
structure Column where
  raw_name : String
  type : Option String
  constraints : List String
deriving Repr, DecidableEq

/-- Dataclass equality of two `Column`s: field-wise, with the constraint
set compared as a set. -/
def columnEq (a b : Column) : Bool :=
  decide (a.raw_name = b.raw_name) && decide (a.type = b.type) &&
    setEq a.constraints b.constraints

/-- Embedding of `Column.to_sql`: name, optional type, then constraints,
joined by spaces (set iteration determinized to list order). -/
def Column.toSql (c : Column) : String :=
  String.intercalate " "
    ([c.raw_name] ++ (match c.type with | some t => [t] | none => []) ++ c.constraints)

/-- Embedding of `schema.Table`: logical name, raw (source) name, an
insertion-ordered column dictionary keyed by raw column name, constraint
and option sets, and the optional original source SQL. -/
structure Table where
  name : String
  raw_name : String
  columns : List (String × Column)
  constraints : List String
  options : List String
  sql : Option String
deriving Repr, DecidableEq

/-- Embedding of `schema.Object` (base of `Index`/`View`/`Trigger`):
name, source SQL (its `str()`), and owning-table name. -/
structure Obj where
  name : String
  sql : String
  tbl_name : String
deriving Repr, DecidableEq

/-- Embedding of `schema.Schema`: one insertion-ordered dictionary per
object kind. -/
structure Schema where
  tables : List (String × Table)
  indices : List (String × Obj)
  views : List (String × Obj)
  triggers : List (String × Obj)
deriving Repr, DecidableEq

/-- Embedding of the `ObjectType` literal (`"index" | "view" | "trigger"`). -/
inductive OType where
  | index
  | view
  | trigger
deriving Repr, DecidableEq

/-- Lower-case object type string, as stored in the Python literal. -/
def OType.str : OType → String
  | .index => "index"
  | .view => "view"
  | .trigger => "trigger"

/-- Embedding of `self.type.upper()`. -/
def OType.upper : OType → String
  | .index => "INDEX"
  | .view => "VIEW"
  | .trigger => "TRIGGER"

/-- Embedding of the closed set of `Change` dataclasses from diff.py.
`ReferencedObject` values are carried as the `str(o)` payload inside a
`modifiedTable`'s reference list. -/
inductive Change where
  | newTable (table : Table)
  | modifiedTable (old : Table) (new : Table) (references : List String)
  | deletedTable (table : Table)
  | newColumn (table : Table) (column : Column)
  | modifiedColumn (table : Table) (old : Column) (new : Column)
  | deletedColumn (table : Table) (column : Column)
  | newObject (sql : String)
  | modifiedObject (type : OType) (name : String) (old : String) (new : String)
  | deletedObject (type : OType) (name : String)
deriving Repr, DecidableEq

/-- Embedding of `SchemaDiff`: the three ordered change lists. -/
structure SchemaDiff where
  new : List Change
  modified : List Change
  deleted : List Change
deriving Repr, DecidableEq

/-- Embedding of `SchemaDiff.extend`. -/
def SchemaDiff.extend (a b : SchemaDiff) : SchemaDiff :=
  ⟨a.new ++ b.new, a.modified ++ b.modified, a.deleted ++ b.deleted⟩

/-- Embedding of the regex test `UNQUOTED_IDENTIFIER.match(s)` from
escapes.py.  The pattern `[a-z_]\w*` with `re.IGNORECASE` is applied with
`re.match`, which anchors only at the start of the string, and `\w*`
always matches the empty run; hence the match succeeds exactly when the
first character is an ASCII letter or underscore (ASCII model of the
character classes). -/
def unquotedIdentifierMatch (s : String) : Bool :=
  match s.data with
  | [] => false
  | c :: _ =>
      (decide (Char.ofNat 97 ≤ c) && decide (c ≤ Char.ofNat 122)) ||
      (decide (Char.ofNat 65 ≤ c) && decide (c ≤ Char.ofNat 90)) ||
      decide (c = Char.ofNat 95)

/-- Embedding of Python `str.replace(pat, rep)` (replace all occurrences,
scanning left to right and continuing after each replacement), on
character lists. -/
def pyReplaceAll (s pat rep : List Char) : List Char :=
  match s with
  | [] => []
  | c :: rest =>
      if pat ≠ [] ∧ pat.isPrefixOf (c :: rest) then
        rep ++ pyReplaceAll (rest.drop (pat.length - 1)) pat rep
      else
        c :: pyReplaceAll rest pat rep
termination_by s.length
decreasing_by
  · simp only [List.length_cons, List.length_drop]
    omega
  · simp only [List.length_cons]
    omega

/-- Embedding of Python `str.replace(pat, rep, 1)` (replace the first
occurrence only), on character lists. -/
def replaceOnceL : List Char → List Char → List Char → List Char
  | [], pat, rep => if pat.isEmpty then rep else []
  | c :: rest, pat, rep =>
      if pat.isPrefixOf (c :: rest) then rep ++ (c :: rest).drop pat.length
      else c :: replaceOnceL rest pat rep

/-- Substring-occurrence test matching the recursion of `replaceOnceL`
(`pat in s` in Python). -/
def occursL (pat : List Char) : List Char → Bool
  | [] => pat.isEmpty
  | c :: rest => pat.isPrefixOf (c :: rest) || occursL pat rest

/-- String-level wrapper for `replaceOnceL`. -/
def replaceOnce (s pat rep : String) : String :=
  ⟨replaceOnceL s.data pat.data rep.data⟩

/-- String-level wrapper for `occursL`. -/
def occursSub (pat s : String) : Bool :=
  occursL pat.data s.data

/-- Embedding of `escapes.sql_identifier`. -/
def sqlIdentifier (s : String) (asNeeded : Bool) : String :=
  if asNeeded && unquotedIdentifierMatch s then s
  else "\"" ++ String.mk (pyReplaceAll s.data [Char.ofNat 34] [Char.ofNat 34, Char.ofNat 34]) ++ "\""

/-- Newline split (`str.splitlines` as used by `textwrap.indent`), on
character lists; joining the pieces with a newline restores the input. -/
def splitOnNl : List Char → List (List Char)
  | [] => [[]]
  | c :: rest =>
      if c = Char.ofNat 10 then [] :: splitOnNl rest
      else
        match splitOnNl rest with
        | [] => [[c]]
        | l :: ls => (c :: l) :: ls

/-- Embedding of `escapes.sql_comment`, i.e. `textwrap.indent(s, "-- ")`:
prefix every line whose content is not pure whitespace with `"-- "`. -/
def sqlComment (s : String) : String :=
  String.intercalate "\n"
    ((splitOnNl s.data).map (fun l =>
      if l.all Char.isWhitespace then String.mk l else "-- " ++ String.mk l))

/-- Check whether an embedded computation raised. -/
def isErr {ε α : Type} : Except ε α → Bool
  | .error _ => true
  | .ok _ => false

/-- Embedding of `Change.to_sql`.  Python exceptions (`ValueError`,
`TypeError`) are embedded as `Except.error` carrying the message. -/
def Change.toSql : Change → Except String String
  | .newTable t =>
      match t.sql with
      | none => .error ("No source SQL available for " ++ t.raw_name ++ " table")
      | some sql => .ok sql
  | .modifiedTable told tnew refs =>
      match told.sql with
      | none => .error ("No source SQL available for " ++ told.raw_name ++ " table")
      | some osql =>
        match tnew.sql with
        | none => .error ("No source SQL available for " ++ tnew.raw_name ++ " table")
        | some nsql =>
          let commonColumns := keysInter tnew.columns told.columns
          let columns := String.intercalate ", "
            (commonColumns.filterMap (fun n => (dlookup told.columns n).map Column.raw_name))
          let newSqlTemp :=
            replaceOnce nsql ("CREATE TABLE " ++ tnew.raw_name) "CREATE TABLE sqlitediff_temp"
          if newSqlTemp = nsql then
            .error ("Table " ++ tnew.name ++ " SQL does not match name")
          else
            let sql :=
              ["-- Previous table schema for " ++ told.raw_name ++ ":",
               sqlComment (osql ++ ";"),
               newSqlTemp ++ ";",
               "INSERT INTO sqlitediff_temp (" ++ columns ++ ") SELECT " ++ columns ++
                 " FROM " ++ told.raw_name ++ ";",
               "DROP TABLE " ++ told.raw_name ++ ";",
               "ALTER TABLE sqlitediff_temp RENAME TO " ++ tnew.raw_name ++ ";"]
            let sql :=
              if refs.length > 0 then
                sql ++ [""] ++ ["-- Restoring references to " ++ tnew.raw_name ++ ":"] ++
                  refs.map (fun r => r ++ ";")
              else sql
            .ok (String.intercalate "\n" sql)
  | .deletedTable t => .ok ("DELETE TABLE " ++ t.raw_name ++ ";")
  | .newColumn t c => .ok ("ALTER TABLE " ++ t.raw_name ++ " ADD COLUMN " ++ c.toSql ++ ";")
  | .modifiedColumn t _ cnew =>
      .error ("Column " ++ cnew.raw_name ++ " for table " ++ t.raw_name ++
        " cannot be modified in-place as SQLite does not support it.")
  | .deletedColumn t c =>
      .ok ("ALTER TABLE " ++ t.raw_name ++ " DROP COLUMN " ++ c.raw_name ++ ";")
  | .newObject sql => .ok (sql ++ ";")
  | .modifiedObject ty name old new =>
      let quoted := sqlIdentifier name true
      .ok ("-- Previous " ++ ty.str ++ " schema for " ++ name ++ ":\n" ++
        sqlComment (old ++ ";") ++ "\n" ++
        "DROP " ++ ty.upper ++ " IF EXISTS " ++ quoted ++ ";\n" ++
        new ++ ";")
  | .deletedObject ty name =>
      .ok ("DROP " ++ ty.upper ++ " IF EXISTS " ++ sqlIdentifier name true ++ ";")

/-- Single-word `str.title()` as used for the group banners (which are
always "modified"/"deleted"/"new"): first letter upper-cased, the rest
lower-cased. -/
def pyTitle (s : String) : String :=
  match s.data with
  | [] => ""
  | c :: rest => String.mk (c.toUpper :: rest.map Char.toLower)

/-- Rendering loop over the changes of one group; the first raising
change aborts everything, as in Python. -/
def renderChanges : List Change → Except String (List String)
  | [] => .ok []
  | c :: rest =>
      match Change.toSql c, renderChanges rest with
      | .error e, _ => .error e
      | .ok _, .error e => .error e
      | .ok s, .ok ss => .ok (s :: ss)

/-- Rendering loop over the `(group, changes)` pairs of
`SchemaDiff.to_sql`: empty groups are skipped, otherwise the banner plus
each change's SQL are joined with blank lines. -/
def renderGroups : List (String × List Change) → Except String (List String)
  | [] => .ok []
  | (title, changes) :: rest =>
      if changes.isEmpty then renderGroups rest
      else
        match renderChanges changes, renderGroups rest with
        | .error e, _ => .error e
        | .ok _, .error e => .error e
        | .ok stmts, .ok blocks =>
            .ok (String.intercalate "\n\n"
              (("-- " ++ pyTitle title ++ " Objects --") :: stmts) :: blocks)

/-- Embedding of `SchemaDiff.to_sql`: the grouped-changes dictionary is
iterated in its insertion order modified, deleted, new. -/
def SchemaDiff.toSql (d : SchemaDiff) : Except String String :=
  match renderGroups [("modified", d.modified), ("deleted", d.deleted), ("new", d.new)] with
  | .error e => .error e
  | .ok blocks => .ok (String.intercalate "\n\n" blocks)

/-- Embedding of `_column_diff(table, new, old)` from diff.py. -/
def columnDiff (table : Table) (new old : List (String × Column)) : SchemaDiff :=
  { new := (dictDiff new (keys old)).map (fun p => Change.newColumn table p.2)
    modified := (keysInter new old).filterMap (fun n =>
      match dlookup new n, dlookup old n with
      | some cnew, some cold =>
          if columnEq cnew cold then none
          else some (Change.modifiedColumn table cold cnew)
      | _, _ => none)
    deleted := (dictDiff old (keys new)).map (fun p => Change.deletedColumn table p.2) }

/-- Embedding of `_diff_matches_column_order(diff, new, old)`: apply the
computed deletes then adds to the old column dictionary and compare the
resulting key order with the new declaration order.  Python dict
assignment keeps the position of an existing key and appends a new one;
`del` removes the entry. -/
def diffMatchesColumnOrder (diff : SchemaDiff) (new old : List (String × Column)) : Bool :=
  let altered := diff.deleted.foldl (fun acc c =>
    match c with
    | Change.deletedColumn _ col => acc.filter (fun p => !(decide (p.1 = col.raw_name)))
    | _ => acc) old
  let altered := diff.new.foldl (fun acc c =>
    match c with
    | Change.newColumn _ col =>
        if memb col.raw_name (keys acc) then
          acc.map (fun p => if p.1 = col.raw_name then (p.1, col) else p)
        else acc ++ [(col.raw_name, col)]
    | _ => acc) altered
  decide (keys altered = keys new)

/-- Per-common-table branch of `_table_diff`: decide whether the table
must be recreated and produce either a single `ModifiedTable` change or
the incremental column diff. -/
def commonTableChange (tnew told : Table) : SchemaDiff :=
  let cd := columnDiff tnew tnew.columns told.columns
  let mustRecreate :=
    !(setEq tnew.constraints told.constraints) ||
    !(setEq tnew.options told.options) ||
    !cd.modified.isEmpty ||
    !(diffMatchesColumnOrder cd tnew.columns told.columns)
  if mustRecreate then ⟨[], [Change.modifiedTable told tnew []], []⟩ else cd

/-- Embedding of `_table_diff(new, old)` from diff.py. -/
def tableDiff (new old : List (String × Table)) : SchemaDiff :=
  let start : SchemaDiff :=
    ⟨(dictDiff new (keys old)).map (fun p => Change.newTable p.2), [], []⟩
  let mid := (keysInter new old).foldl (fun d name =>
    match dlookup new name, dlookup old name with
    | some tnew, some told => d.extend (commonTableChange tnew told)
    | _, _ => d) start
  ⟨mid.new, mid.modified,
    mid.deleted ++ (dictDiff old (keys new)).map (fun p => Change.deletedTable p.2)⟩

/-- Embedding of `_object_diff(type, new, old)` from diff.py. -/
def objectDiff (ty : OType) (new old : List (String × Obj)) : SchemaDiff :=
  { new := (dictDiff new (keys old)).map (fun p => Change.newObject p.2.sql)
    modified := (keysInter new old).filterMap (fun n =>
      match dlookup new n, dlookup old n with
      | some a, some b =>
          if a = b then none else some (Change.modifiedObject ty n b.sql a.sql)
      | _, _ => none)
    deleted := (dictDiff old (keys new)).map (fun p => Change.deletedObject ty p.1) }

/-- Embedding of `_is_reference_modified(o, diff)`: the object counts as
independently modified when any `ModifiedObject` in the modified list or
any `DeletedObject` in the deleted list carries the same *name* (the
source compares names only, not kinds). -/
def isReferenceModified (o : Obj) (diff : SchemaDiff) : Bool :=
  diff.modified.any (fun c =>
    match c with
    | Change.modifiedObject _ n _ _ => decide (n = o.name)
    | _ => false) ||
  diff.deleted.any (fun c =>
    match c with
    | Change.deletedObject _ n => decide (n = o.name)
    | _ => false)

/-- Restoration statements collected for one `ModifiedTable` by
`_add_table_references`: the `str(o)` of every object of the batch whose
owning-table name equals the table's new name and which is not already
independently modified or deleted. -/
def refListFor (diff : SchemaDiff) (objects : List Obj) (tnew : Table) : List String :=
  (objects.filter (fun ob =>
    decide (ob.tbl_name = tnew.name) && !(isReferenceModified ob diff))).map Obj.sql

/-- Embedding of `_add_table_references(diff, objects)`: append the
collected restoration statements to every `ModifiedTable` in the
modified list (the collection uses the diff as it was before any
appending, exactly as the two-phase loop in the source). -/
def addTableReferences (diff : SchemaDiff) (objects : List Obj) : SchemaDiff :=
  { diff with modified := diff.modified.map (fun c =>
      match c with
      | Change.modifiedTable told tnew refs =>
          Change.modifiedTable told tnew (refs ++ refListFor diff objects tnew)
      | c => c) }

/-- Embedding of `schema_diff(new, old)` from diff.py. -/
def schemaDiff (new old : Schema) : SchemaDiff :=
  let d := (((tableDiff new.tables old.tables).extend
    (objectDiff .index new.indices old.indices)).extend
    (objectDiff .view new.views old.views)).extend
    (objectDiff .trigger new.triggers old.triggers)
  let d := addTableReferences d (values old.indices)
  let d := addTableReferences d (values old.views)
  addTableReferences d (values old.triggers)

/-- Content of the packaged grammar file `table.lark`, kept abstract as
an opaque constant string: the claims about parser construction depend
only on identity and caching of this text, never on its content. -/
def tableGrammarText : String := "table.lark grammar source"

/-- Process-wide state of parser.py: the `functools.lru_cache` slot of
the zero-argument `get_table_grammar`, plus ghost counters recording how
often the grammar resource was read and how often `lark.Lark` was
constructed. -/
structure ParserProcState where
  grammarCache : Option String
  grammarReads : Nat
  parserBuilds : Nat
deriving Repr, DecidableEq

/-- Fresh interpreter state: nothing cached, nothing built. -/
def ParserProcState.init : ParserProcState := ⟨none, 0, 0⟩

/-- Model of a constructed `lark.Lark` parser object: it is determined
by the grammar text it was compiled from. -/
structure Lark where
  grammar : String
deriving Repr, DecidableEq

/-- Embedding of `get_table_grammar()`: `lru_cache` returns the cached
text when present, otherwise reads the packaged resource once and caches
it. -/
def getTableGrammar (st : ParserProcState) : String × ParserProcState :=
  match st.grammarCache with
  | some g => (g, st)
  | none =>
      (tableGrammarText,
        { st with grammarCache := some tableGrammarText,
                  grammarReads := st.grammarReads + 1 })

/-- Embedding of `create_table_parser()`: fetch the (cached) grammar
text, then construct a `lark.Lark` parser from it — the construction
itself is *not* cached and happens on every call. -/
def createTableParser (st : ParserProcState) : Lark × ParserProcState :=
  let (g, st) := getTableGrammar st
  (⟨g⟩, { st with parserBuilds := st.parserBuilds + 1 })

/-- State after `n` successive calls of `create_table_parser` in a fresh
process. -/
def callParserN : Nat → ParserProcState
  | 0 => ParserProcState.init
  | n + 1 => (createTableParser (callParserN n)).2

/-- Recognizer for the `ModifiedColumn` change variant. -/
def Change.isModifiedColumn : Change → Bool
  | .modifiedColumn _ _ _ => true
  | _ => false

/-- Check whether a `ModifiedColumn` occurs anywhere in a diff. -/
def SchemaDiff.hasModifiedColumn (d : SchemaDiff) : Bool :=
  d.new.any Change.isModifiedColumn ||
  d.modified.any Change.isModifiedColumn ||
  d.deleted.any Change.isModifiedColumn

/-- Recognizer for the `NewColumn` change variant. -/
def Change.isNewColumn : Change → Bool
  | .newColumn _ _ => true
  | _ => false

/-- Recognizer for the `DeletedColumn` change variant. -/
def Change.isDeletedColumn : Change → Bool
  | .deletedColumn _ _ => true
  | _ => false

/-- Forget the restoration list of a `ModifiedTable`, leaving every other
change variant untouched; used to compare modified lists up to the
reference augmentation performed by `_add_table_references`. -/
def Change.clearRefs : Change → Change
  | .modifiedTable told tnew _ => .modifiedTable told tnew []
  | c => c

/-- Spec-side predicate: the character is a legal identifier character
(ASCII letter, digit, or underscore). -/
def isIdentChar (c : Char) : Bool :=
  (decide (Char.ofNat 97 ≤ c) && decide (c ≤ Char.ofNat 122)) ||
  (decide (Char.ofNat 65 ≤ c) && decide (c ≤ Char.ofNat 90)) ||
  (decide (Char.ofNat 48 ≤ c) && decide (c ≤ Char.ofNat 57)) ||
  decide (c = Char.ofNat 95)

/-- Spec-side quote-escaping of a single character: a double quote is
doubled, everything else is kept. -/
def escQuoteChar (c : Char) : List Char :=
  if c = Char.ofNat 34 then [Char.ofNat 34, Char.ofNat 34] else [c]

/-- Spec-side block rendering used to state the emitter-order theorem:
an empty statement list yields no block, otherwise the banner followed by
the statements, joined with blank lines. -/
def blockOf (title : String) (stmts : List String) : Option String :=
  if stmts.isEmpty then none
  else some (String.intercalate "\n\n" (("-- " ++ pyTitle title ++ " Objects --") :: stmts))

/-- Untyped column `x`. -/
def colX : Column := ⟨"x", none, []⟩

/-- Column `x TEXT`. -/
def colXText : Column := ⟨"x", some "TEXT", []⟩

/-- Untyped column `y`. -/
def colY : Column := ⟨"y", none, []⟩

/-- Old table `foo (x)` from tests/test_diff.py. -/
def fooOld : Table := ⟨"foo", "foo", [("x", colX)], [], [], some "CREATE TABLE foo (x)"⟩

/-- New table `foo (x TEXT)` from tests/test_diff.py. -/
def fooNew : Table := ⟨"foo", "foo", [("x", colXText)], [], [], some "CREATE TABLE foo (x TEXT)"⟩

/-- Index `bar` on table `foo`. -/
def barIndex : Obj := ⟨"bar", "CREATE INDEX bar ON foo (x)", "foo"⟩

/-- Trigger `baz` on table `foo`; its catalog `tbl_name` is `foo`. -/
def bazTrigger : Obj :=
  ⟨"baz", "CREATE TRIGGER baz AFTER INSERT ON foo BEGIN DELETE FROM foo; END", "foo"⟩

/-- Old view `baz`; a view's catalog `tbl_name` is its own name. -/
def bazViewOld : Obj := ⟨"baz", "CREATE VIEW baz (x) AS SELECT x FROM foo", "baz"⟩

/-- New, altered view `baz`. -/
def bazViewNew : Obj := ⟨"baz", "CREATE VIEW baz (x) AS SELECT x FROM foo WHERE x > 0", "baz"⟩

/-- Old schema of the shadowed-reference scenario of tests/test_diff.py. -/
def shadowOld : Schema :=
  ⟨[("foo", fooOld)], [("bar", barIndex)], [("baz", bazViewOld)], [("baz", bazTrigger)]⟩

/-- New schema of the shadowed-reference scenario of tests/test_diff.py. -/
def shadowNew : Schema :=
  ⟨[("foo", fooNew)], [("bar", barIndex)], [("baz", bazViewNew)], [("baz", bazTrigger)]⟩

/-- Schema with no objects at all. -/
def emptySchema : Schema := ⟨[], [], [], []⟩

/-- Schema holding only table `foo (x)`. -/
def fooOnlySchema : Schema := ⟨[("foo", fooOld)], [], [], []⟩

/-- Old table `t (x, y)` of the column-swap scenario. -/
def swapOldT : Table := ⟨"t", "t", [("x", colX), ("y", colY)], [], [], some "CREATE TABLE t (x, y)"⟩

/-- New table `t (y, x)` of the column-swap scenario: same column set,
swapped declaration order. -/
def swapNewT : Table := ⟨"t", "t", [("y", colY), ("x", colX)], [], [], some "CREATE TABLE t (y, x)"⟩

/-- Schema holding only `t (x, y)`. -/
def swapOldS : Schema := ⟨[("t", swapOldT)], [], [], []⟩

/-- Schema holding only `t (y, x)`. -/
def swapNewS : Schema := ⟨[("t", swapNewT)], [], [], []⟩

/-- Table `a (x)`, present only in the old rendering fixture. -/
def tA : Table := ⟨"a", "a", [("x", colX)], [], [], some "CREATE TABLE a (x)"⟩

/-- Table `b (x)`, present only in the new rendering fixture. -/
def tB : Table := ⟨"b", "b", [("x", colX)], [], [], some "CREATE TABLE b (x)"⟩

/-- Old index `i` on table `a` with source text `A`. -/
def idxOldI : Obj := ⟨"i", "A", "a"⟩

/-- New index `i` on table `a` with source text `B`. -/
def idxNewI : Obj := ⟨"i", "B", "a"⟩

/-- Old schema of the rendering-order fixture: table `a` and index `i`. -/
def renderOldS : Schema := ⟨[("a", tA)], [("i", idxOldI)], [], []⟩

/-- New schema of the rendering-order fixture: table `b` and the altered
index `i`; all three diff buckets end up non-empty. -/
def renderNewS : Schema := ⟨[("b", tB)], [("i", idxNewI)], [], []⟩

/-- Table whose raw name collides with the temporary-table name used by
the recreation rendering. -/
def tempNamedTable : Table :=
  ⟨"sqlitediff_temp", "sqlitediff_temp", [("x", colX)], [], [],
    some "CREATE TABLE sqlitediff_temp (x)"⟩

/-- C1: in the shadowed-reference scenario of tests/test_diff.py (table
`foo` recreated; trigger `baz` on `foo` unchanged; an unrelated *view*
also named `baz` modified), `schema_diff` restores only index `bar`: the
trigger's restoration is suppressed because `_is_reference_modified`
matches the modified view by name alone, ignoring the kind.  The claim
(and the repository's own test, which expects two restorations) requires
the trigger statement to be present as well. -/
theorem c1_trigger_restoration_suppressed_by_view :
    (schemaDiff shadowNew shadowOld).modified =
      [Change.modifiedTable fooOld fooNew ["CREATE INDEX bar ON foo (x)"],
       Change.modifiedObject OType.view "baz"
         "CREATE VIEW baz (x) AS SELECT x FROM foo"
         "CREATE VIEW baz (x) AS SELECT x FROM foo WHERE x > 0"] ∧
    bazTrigger.tbl_name = fooNew.name ∧
    isReferenceModified bazTrigger
      (SchemaDiff.mk [] [Change.modifiedObject OType.view "baz"
         "CREATE VIEW baz (x) AS SELECT x FROM foo"
         "CREATE VIEW baz (x) AS SELECT x FROM foo WHERE x > 0"] []) = true := by
  refine ⟨rfl, rfl, ?_⟩
  decide

/-- C3: a table present only in the old schema yields exactly one
`DeletedTable` change and nothing else, but rendering it produces the
statement `DELETE TABLE foo;` — not a DROP statement as the claim (and
SQLite's grammar) requires. -/
theorem c3_deleted_table_renders_delete_statement :
    schemaDiff emptySchema fooOnlySchema =
      SchemaDiff.mk [] [] [Change.deletedTable fooOld] ∧
    Change.toSql (Change.deletedTable fooOld) = Except.ok "DELETE TABLE foo;" ∧
    Change.toSql (Change.deletedTable fooOld) ≠ Except.ok ("DROP TABLE foo;") := by
  refine ⟨rfl, rfl, ?_⟩
  intro h
  exact absurd (Except.ok.inj h) (by decide)

/-- C4: `NewObject.to_sql` appends the statement terminator to the
captured source text, but `NewTable.to_sql` returns the stored source
text with *no* terminator, contradicting the round-trip claim (and
producing an unterminated statement in the emitted script). -/
theorem c4_new_table_renders_without_terminator :
    Change.toSql (Change.newTable fooOld) = Except.ok "CREATE TABLE foo (x)" ∧
    Change.toSql (Change.newTable fooOld) ≠
      Except.ok ("CREATE TABLE foo (x)" ++ ";") ∧
    Change.toSql (Change.newObject "CREATE INDEX bar ON foo (x)") =
      Except.ok ("CREATE INDEX bar ON foo (x)" ++ ";") := by
  refine ⟨rfl, ?_, rfl⟩
  intro h
  exact absurd (Except.ok.inj h) (by decide)

/-- C8 counterexample: the string `a b` contains a character that is not
a legal identifier character, so the claim requires it to be quoted; the
code returns it unchanged because `re.match` only inspects the first
character run and never anchors at the end. -/
theorem c8_counterexample_space_not_quoted :
    ("a b".data.any (fun c => !(isIdentChar c))) = true ∧
    sqlIdentifier "a b" true = "a b" := by
  exact ⟨by decide, rfl⟩

/-- C9 counterexample: two calls of `create_table_parser` in a fresh
process construct two `lark.Lark` parser objects, refuting the claim
that the compiled parser is built exactly once and reused. -/
theorem c9_counterexample_parser_rebuilt :
    (callParserN 2).parserBuilds = 2 ∧ (callParserN 2).parserBuilds ≠ 1 := by
  exact ⟨rfl, by decide⟩

/-- C10 counterexample: for a table whose raw name is exactly
`sqlitediff_temp`, the literal substring `CREATE TABLE sqlitediff_temp`
*is* present in the stored SQL, yet `ModifiedTable.to_sql` still raises,
because the one-shot replacement rewrites the substring to itself and
the code tests for a changed string rather than for presence. -/
theorem c10_counterexample_temp_name :
    occursSub ("CREATE TABLE " ++ tempNamedTable.raw_name)
      "CREATE TABLE sqlitediff_temp (x)" = true ∧
    Change.toSql (Change.modifiedTable tempNamedTable tempNamedTable []) =
      Except.error "Table sqlitediff_temp SQL does not match name" := by
  exact ⟨by decide, rfl⟩

/-- Helper: after at least one call of `create_table_parser` the process
state holds the cached grammar text, one resource read, and one parser
construction per call. -/
theorem callParserN_succ (n : Nat) :
    callParserN (n + 1) = ⟨some tableGrammarText, 1, n + 1⟩ := by
  induction n with
  | zero => rfl
  | succ m ih =>
      show (createTableParser (callParserN (m + 1))).2 = _
      rw [ih]
      rfl

/-- C9 (amended): within one process, the grammar source text is read
and cached exactly once (`lru_cache` on `get_table_grammar`), but every
call of `create_table_parser` constructs a fresh parser object: after
`n` calls the resource was read `min n 1` times while `n` parsers were
built. -/
theorem c9_grammar_cached_parser_rebuilt (n : Nat) :
    (callParserN n).grammarReads = min n 1 ∧ (callParserN n).parserBuilds = n := by
  cases n with
  | zero => exact ⟨rfl, rfl⟩
  | succ m =>
      rw [callParserN_succ]
      refine ⟨?_, rfl⟩
      simp

/-- C5: whenever the simulated application of the computed column adds
and deletes to the old column order does not reproduce the new
declaration order, the table is emitted as a single `ModifiedTable`
(full recreation) with no incremental column change. -/
theorem c5_column_order_mismatch_forces_recreation (tnew told : Table)
    (h : diffMatchesColumnOrder (columnDiff tnew tnew.columns told.columns)
      tnew.columns told.columns = false) :
    commonTableChange tnew told =
      SchemaDiff.mk [] [Change.modifiedTable told tnew []] [] := by
  simp only [commonTableChange, h, Bool.not_false, Bool.or_true, if_true]

/-- Witness for C5 at the swapped-column scenario `t(x, y)` vs `t(y, x)`:
the order check fails, the per-table decision yields a lone
`ModifiedTable`, and the whole schema diff contains exactly that change
and no `NewColumn`/`DeletedColumn`. -/
theorem c5_witness :
    diffMatchesColumnOrder (columnDiff swapNewT swapNewT.columns swapOldT.columns)
      swapNewT.columns swapOldT.columns = false ∧
    commonTableChange swapNewT swapOldT =
      SchemaDiff.mk [] [Change.modifiedTable swapOldT swapNewT []] [] ∧
    schemaDiff swapNewS swapOldS =
      SchemaDiff.mk [] [Change.modifiedTable swapOldT swapNewT []] [] :=
  ⟨by decide, c5_column_order_mismatch_forces_recreation swapNewT swapOldT (by decide),
    by decide⟩

/-- Helper: extending two diffs free of `ModifiedColumn` stays free of
`ModifiedColumn`. -/
theorem hasModifiedColumn_extend_false {a b : SchemaDiff}
    (ha : a.hasModifiedColumn = false) (hb : b.hasModifiedColumn = false) :
    (a.extend b).hasModifiedColumn = false := by
  simp only [SchemaDiff.hasModifiedColumn, SchemaDiff.extend, List.any_append,
    Bool.or_eq_false_iff] at *
  tauto

/-- Helper: a mapped list whose image constructor is never
`ModifiedColumn` contains no `ModifiedColumn`. -/
theorem any_map_isModifiedColumn_false {α : Type} (l : List α) (f : α → Change)
    (h : ∀ a, (f a).isModifiedColumn = false) :
    (l.map f).any Change.isModifiedColumn = false := by
  induction l with
  | nil => rfl
  | cons a l ih => simp [List.any_cons, h a, ih]

/-- Helper: the per-common-table decision never leaks a `ModifiedColumn`
into the diff: either the table is recreated wholesale, or the column
diff had no modified column to begin with. -/
theorem commonTableChange_no_modifiedColumn (tnew told : Table) :
    (commonTableChange tnew told).hasModifiedColumn = false := by
  simp only [commonTableChange]
  split
  · rfl
  · next hcond =>
      rw [Bool.not_eq_true, Bool.or_eq_false_iff, Bool.or_eq_false_iff,
        Bool.or_eq_false_iff] at hcond
      have hiem : (columnDiff tnew tnew.columns told.columns).modified.isEmpty = true := by
        have hb := hcond.1.2
        revert hb
        cases (columnDiff tnew tnew.columns told.columns).modified.isEmpty <;> simp
      have hmod : (columnDiff tnew tnew.columns told.columns).modified = [] :=
        List.isEmpty_iff.mp hiem
      simp only [SchemaDiff.hasModifiedColumn, hmod, List.any_nil, Bool.or_false,
        Bool.false_or]
      simp only [columnDiff]
      rw [Bool.or_eq_false_iff]
      constructor
      all_goals
        rw [List.any_eq_false]
        intro c hc
        rw [List.mem_map] at hc
        obtain ⟨p, _, rfl⟩ := hc
        simp [Change.isModifiedColumn]

/-- Helper: `_table_diff` produces no `ModifiedColumn` anywhere. -/
theorem tableDiff_no_modifiedColumn (new old : List (String × Table)) :
    (tableDiff new old).hasModifiedColumn = false := by
  have hfold : ∀ (l : List String) (d : SchemaDiff),
      d.hasModifiedColumn = false →
      (l.foldl (fun d name =>
        match dlookup new name, dlookup old name with
        | some tnew, some told => d.extend (commonTableChange tnew told)
        | _, _ => d) d).hasModifiedColumn = false := by
    intro l
    induction l with
    | nil => intro d hd; exact hd
    | cons a l ih =>
        intro d hd
        rw [List.foldl_cons]
        refine ih _ ?_
        cases h1 : dlookup new a with
        | none => cases h2 : dlookup old a <;> simpa [h1, h2] using hd
        | some tnew =>
            cases h2 : dlookup old a with
            | none => simpa [h1, h2] using hd
            | some told =>
                simp only [h1, h2]
                exact hasModifiedColumn_extend_false hd
                  (commonTableChange_no_modifiedColumn tnew told)
  have hstart :
      (SchemaDiff.mk ((dictDiff new (keys old)).map (fun p => Change.newTable p.2))
        [] []).hasModifiedColumn = false := by
    simp only [SchemaDiff.hasModifiedColumn, List.any_nil, Bool.or_false]
    exact any_map_isModifiedColumn_false _ _ (fun _ => rfl)
  have hmid := hfold (keysInter new old) _ hstart
  simp only [tableDiff, SchemaDiff.hasModifiedColumn, List.any_append] at *
  rw [Bool.or_eq_false_iff, Bool.or_eq_false_iff] at hmid
  rw [Bool.or_eq_false_iff, Bool.or_eq_false_iff, Bool.or_eq_false_iff]
  refine ⟨⟨hmid.1.1, hmid.1.2⟩, hmid.2, ?_⟩
  exact any_map_isModifiedColumn_false _ _ (fun _ => rfl)

/-- Helper: `_object_diff` produces no `ModifiedColumn` anywhere. -/
theorem objectDiff_no_modifiedColumn (ty : OType) (new old : List (String × Obj)) :
    (objectDiff ty new old).hasModifiedColumn = false := by
  simp only [objectDiff, SchemaDiff.hasModifiedColumn]
  rw [Bool.or_eq_false_iff, Bool.or_eq_false_iff]
  refine ⟨⟨any_map_isModifiedColumn_false _ _ (fun _ => rfl), ?_⟩,
    any_map_isModifiedColumn_false _ _ (fun _ => rfl)⟩
  rw [List.any_eq_false]
  intro c hc
  rw [List.mem_filterMap] at hc
  obtain ⟨n, _, hf⟩ := hc
  cases h1 : dlookup new n with
  | none => simp [h1] at hf
  | some a =>
      cases h2 : dlookup old n with
      | none => simp [h1, h2] at hf
      | some b =>
          simp only [h1, h2] at hf
          split at hf
          · exact absurd hf (by simp)
          · cases hf
            simp [Change.isModifiedColumn]

/-- Helper: appending reference restorations preserves the absence of
`ModifiedColumn` changes. -/
theorem addTableReferences_no_modifiedColumn {d : SchemaDiff} (objs : List Obj)
    (hd : d.hasModifiedColumn = false) :
    (addTableReferences d objs).hasModifiedColumn = false := by
  have hmap : ∀ (l : List Change),
      (l.map (fun c => match c with
        | Change.modifiedTable told tnew refs =>
            Change.modifiedTable told tnew (refs ++ refListFor d objs tnew)
        | c => c)).any Change.isModifiedColumn = l.any Change.isModifiedColumn := by
    intro l
    induction l with
    | nil => rfl
    | cons c l ih => cases c <;> simp [List.any_cons, ih, Change.isModifiedColumn]
  simp only [addTableReferences, SchemaDiff.hasModifiedColumn] at *
  rw [hmap]
  exact hd

/-- C2: the diff returned by `schema_diff` never contains a standalone
`ModifiedColumn` change anywhere in its three lists, and whenever some
common column of a table pair is structurally unequal the per-table
decision emits a lone `ModifiedTable` (full recreation) instead. -/
theorem c2_no_standalone_modified_column (n o : Schema) (tnew told : Table)
    (h : (columnDiff tnew tnew.columns told.columns).modified ≠ []) :
    (schemaDiff n o).hasModifiedColumn = false ∧
    commonTableChange tnew told =
      SchemaDiff.mk [] [Change.modifiedTable told tnew []] [] := by
  constructor
  · simp only [schemaDiff]
    refine addTableReferences_no_modifiedColumn _
      (addTableReferences_no_modifiedColumn _
        (addTableReferences_no_modifiedColumn _ ?_))
    refine hasModifiedColumn_extend_false
      (hasModifiedColumn_extend_false
        (hasModifiedColumn_extend_false (tableDiff_no_modifiedColumn _ _)
          (objectDiff_no_modifiedColumn _ _ _))
        (objectDiff_no_modifiedColumn _ _ _))
      (objectDiff_no_modifiedColumn _ _ _)
  · have hne : (columnDiff tnew tnew.columns told.columns).modified.isEmpty = false := by
      rw [List.isEmpty_eq_false]
      exact h
    simp only [commonTableChange, hne, Bool.not_false, Bool.or_true, Bool.true_or,
      if_true]

/-- Witness for C2: the invariant holds on the shadowed-reference
schemas, and the structurally changed column `x` of table `foo` forces
the lone `ModifiedTable` decision. -/
theorem c2_witness :
    (schemaDiff shadowNew shadowOld).hasModifiedColumn = false ∧
    commonTableChange fooNew fooOld =
      SchemaDiff.mk [] [Change.modifiedTable fooOld fooNew []] [] :=
  c2_no_standalone_modified_column shadowNew shadowOld fooNew fooOld (by decide)

/-- Helper: membership implies `memb`. -/
theorem memb_of_mem {k : String} {l : List String} (h : k ∈ l) : memb k l = true := by
  induction l with
  | nil => cases h
  | cons x rest ih =>
      by_cases hx : x = k
      · simp [memb, hx]
      · have : k ∈ rest := by
          cases h with
          | head => exact absurd rfl hx
          | tail _ h => exact h
        simp [memb, hx, ih this]

/-- Helper: removing a dictionary's own keys from it leaves nothing. -/
theorem dictDiff_self {α : Type} (l : List (String × α)) : dictDiff l (keys l) = [] := by
  rw [dictDiff, List.filter_eq_nil]
  intro p hp
  have : memb p.1 (keys l) = true := memb_of_mem (List.mem_map_of_mem Prod.fst hp)
  simp [this]

/-- Helper: set equality is reflexive. -/
theorem setEq_self (l : List String) : setEq l l = true := by
  simp only [setEq, Bool.and_eq_true, List.all_eq_true]
  exact ⟨fun x hx => memb_of_mem hx, fun x hx => memb_of_mem hx⟩

/-- Helper: dataclass column equality is reflexive. -/
theorem columnEq_self (c : Column) : columnEq c c = true := by
  simp [columnEq, setEq_self]

/-- Helper: diffing a column dictionary against itself yields no change. -/
theorem columnDiff_self (t : Table) (l : List (String × Column)) :
    columnDiff t l l = SchemaDiff.mk [] [] [] := by
  simp only [columnDiff, dictDiff_self, List.map_nil, SchemaDiff.mk.injEq]
  refine ⟨trivial, ?_, trivial⟩
  rw [List.filterMap_eq_nil]
  intro n _
  cases h : dlookup l n <;> simp [h, columnEq_self]

/-- Helper: the empty diff trivially preserves the column order. -/
theorem diffMatchesColumnOrder_empty (l : List (String × Column)) :
    diffMatchesColumnOrder (SchemaDiff.mk [] [] []) l l = true := by
  simp [diffMatchesColumnOrder]

/-- Helper: a table compared with itself needs no change at all. -/
theorem commonTableChange_self (t : Table) :
    commonTableChange t t = SchemaDiff.mk [] [] [] := by
  simp [commonTableChange, columnDiff_self, setEq_self, diffMatchesColumnOrder_empty]

/-- Helper: extending by the empty diff is the identity. -/
theorem extend_empty (d : SchemaDiff) : d.extend (SchemaDiff.mk [] [] []) = d := by
  simp [SchemaDiff.extend]

/-- Helper: a fold whose step never moves leaves its argument unchanged. -/
theorem foldl_id {α β : Type} (f : β → α → β) (l : List α) (d : β)
    (h : ∀ (d' : β) (a : α), a ∈ l → f d' a = d') : l.foldl f d = d := by
  induction l generalizing d with
  | nil => rfl
  | cons a l ih =>
      rw [List.foldl_cons, h d a (List.mem_cons_self a l)]
      exact ih d (fun d' x hx => h d' x (List.mem_cons_of_mem a hx))

/-- Helper: diffing a table dictionary against itself yields no change. -/
theorem tableDiff_self (l : List (String × Table)) :
    tableDiff l l = SchemaDiff.mk [] [] [] := by
  simp only [tableDiff, dictDiff_self, List.map_nil]
  rw [foldl_id]
  · rfl
  · intro d name _
    cases h : dlookup l name <;> simp [h, commonTableChange_self, extend_empty]

/-- Helper: diffing an object dictionary against itself yields no change. -/
theorem objectDiff_self (ty : OType) (l : List (String × Obj)) :
    objectDiff ty l l = SchemaDiff.mk [] [] [] := by
  simp only [objectDiff, dictDiff_self, List.map_nil, SchemaDiff.mk.injEq]
  refine ⟨trivial, ?_, trivial⟩
  rw [List.filterMap_eq_nil]
  intro n _
  cases h : dlookup l n <;> simp [h]

/-- C6: diffing any schema against an identical copy of itself yields
empty new, modified and deleted lists for every object kind. -/
theorem c6_schema_diff_self_empty (S : Schema) :
    schemaDiff S S = SchemaDiff.mk [] [] [] := by
  simp only [schemaDiff, tableDiff_self, objectDiff_self, extend_empty]
  rfl

/-- Helper: a non-empty change list renders to a non-empty statement
list. -/
theorem renderChanges_cons_ne_nil {c : Change} {rest : List Change} {s : List String}
    (h : renderChanges (c :: rest) = Except.ok s) : s ≠ [] := by
  intro hs
  subst hs
  simp only [renderChanges] at h
  cases h1 : Change.toSql c with
  | error e => simp [h1] at h
  | ok v =>
      cases h2 : renderChanges rest with
      | error e => simp [h1, h2] at h
      | ok ss => simp [h1, h2] at h

/-- Helper: one successfully rendered group prepends its block (or
nothing, when the group is empty) to the rendering of the remaining
groups. -/
theorem renderGroups_cons_ok (t : String) {cs : List Change}
    {rest : List (String × List Change)} {ss bs : List String}
    (h1 : renderChanges cs = Except.ok ss) (h2 : renderGroups rest = Except.ok bs) :
    renderGroups ((t, cs) :: rest) = Except.ok ((blockOf t ss).toList ++ bs) := by
  cases cs with
  | nil =>
      have hss : ss = [] := by
        simp only [renderChanges] at h1
        exact (Except.ok.inj h1).symm
      subst hss
      simp only [renderGroups, List.isEmpty_nil, if_true, blockOf]
      simpa using h2
  | cons c cs' =>
      have hne : ss.isEmpty = false := by
        rw [List.isEmpty_eq_false]
        exact renderChanges_cons_ne_nil h1
      simp only [renderGroups, List.isEmpty_cons, Bool.false_eq_true, if_false, h1, h2,
        blockOf, hne]
      simp

/-- Helper: pointwise equal functions map lists identically. -/
theorem map_congr_mem {α β : Type} {l : List α} {f g : α → β}
    (h : ∀ a ∈ l, f a = g a) : l.map f = l.map g := by
  induction l with
  | nil => rfl
  | cons a l ih =>
      simp only [List.map_cons]
      rw [h a (List.mem_cons_self a l), ih (fun x hx => h x (List.mem_cons_of_mem a hx))]

/-- Helper: attaching reference restorations changes no modified-list
entry up to its reference payload. -/
theorem clearRefs_addTableReferences (d : SchemaDiff) (objs : List Obj) :
    (addTableReferences d objs).modified.map Change.clearRefs =
      d.modified.map Change.clearRefs := by
  simp only [addTableReferences, List.map_map]
  apply map_congr_mem
  intro c _
  cases c <;> rfl

/-- Helper: object-diff modified entries carry no reference payload. -/
theorem objectDiff_modified_map_clearRefs (ty : OType) (a b : List (String × Obj)) :
    (objectDiff ty a b).modified.map Change.clearRefs = (objectDiff ty a b).modified := by
  have h : ∀ c ∈ (objectDiff ty a b).modified, Change.clearRefs c = c := by
    intro c hc
    simp only [objectDiff] at hc
    rw [List.mem_filterMap] at hc
    obtain ⟨x, _, hf⟩ := hc
    cases hx1 : dlookup a x with
    | none => simp [hx1] at hf
    | some u =>
        cases hx2 : dlookup b x with
        | none => simp [hx1, hx2] at hf
        | some v =>
            simp only [hx1, hx2] at hf
            split at hf
            · exact absurd hf (by simp)
            · cases hf
              rfl
  rw [map_congr_mem h]
  simp

/-- C7: `SchemaDiff.to_sql` renders the three buckets in the fixed order
modified, deleted, new, skipping empty buckets, with each bucket's
changes rendered in exactly their appended order; and `schema_diff`
appends into each bucket in the kind order tables, indexes, views,
triggers (modified-list entries compared up to the later reference
augmentation, which only extends a `ModifiedTable`'s restoration
payload). -/
theorem c7_emitter_order (n o : Schema) (ms ds ns : List String)
    (hm : renderChanges (schemaDiff n o).modified = Except.ok ms)
    (hd : renderChanges (schemaDiff n o).deleted = Except.ok ds)
    (hn : renderChanges (schemaDiff n o).new = Except.ok ns) :
    (schemaDiff n o).toSql = Except.ok (String.intercalate "\n\n"
      ((blockOf "modified" ms).toList ++ (blockOf "deleted" ds).toList ++
        (blockOf "new" ns).toList)) ∧
    (schemaDiff n o).new = (tableDiff n.tables o.tables).new ++
      (objectDiff OType.index n.indices o.indices).new ++
      (objectDiff OType.view n.views o.views).new ++
      (objectDiff OType.trigger n.triggers o.triggers).new ∧
    (schemaDiff n o).deleted = (tableDiff n.tables o.tables).deleted ++
      (objectDiff OType.index n.indices o.indices).deleted ++
      (objectDiff OType.view n.views o.views).deleted ++
      (objectDiff OType.trigger n.triggers o.triggers).deleted ∧
    (schemaDiff n o).modified.map Change.clearRefs =
      (tableDiff n.tables o.tables).modified.map Change.clearRefs ++
      (objectDiff OType.index n.indices o.indices).modified ++
      (objectDiff OType.view n.views o.views).modified ++
      (objectDiff OType.trigger n.triggers o.triggers).modified := by
  refine ⟨?_, rfl, rfl, ?_⟩
  · have h3 : renderGroups [("new", (schemaDiff n o).new)] =
        Except.ok ((blockOf "new" ns).toList ++ []) :=
      renderGroups_cons_ok "new" hn rfl
    have h2 := renderGroups_cons_ok "deleted" hd h3
    have h1 := renderGroups_cons_ok "modified" hm h2
    simp only [SchemaDiff.toSql]
    rw [h1]
    simp [List.append_assoc]
  · simp only [schemaDiff]
    rw [clearRefs_addTableReferences, clearRefs_addTableReferences,
      clearRefs_addTableReferences]
    simp only [SchemaDiff.extend, List.map_append, objectDiff_modified_map_clearRefs,
      List.append_assoc]

/-- Witness for C7 on the rendering fixture, whose three buckets are all
non-empty: the buckets render in the order modified, deleted, new with
their banners. -/
theorem c7_witness :
    renderChanges (schemaDiff renderNewS renderOldS).modified =
      Except.ok ["-- Previous index schema for i:\n-- A;\nDROP INDEX IF EXISTS i;\nB;"] ∧
    renderChanges (schemaDiff renderNewS renderOldS).deleted =
      Except.ok ["DELETE TABLE a;"] ∧
    renderChanges (schemaDiff renderNewS renderOldS).new =
      Except.ok ["CREATE TABLE b (x)"] ∧
    (schemaDiff renderNewS renderOldS).toSql = Except.ok (String.intercalate "\n\n"
      ((blockOf "modified"
          ["-- Previous index schema for i:\n-- A;\nDROP INDEX IF EXISTS i;\nB;"]).toList ++
        (blockOf "deleted" ["DELETE TABLE a;"]).toList ++
        (blockOf "new" ["CREATE TABLE b (x)"]).toList)) :=
  ⟨rfl, rfl, rfl,
    (c7_emitter_order renderNewS renderOldS
      ["-- Previous index schema for i:\n-- A;\nDROP INDEX IF EXISTS i;\nB;"]
      ["DELETE TABLE a;"] ["CREATE TABLE b (x)"] rfl rfl rfl).1⟩

/-- Helper: replacing every double quote by a doubled double quote is
exactly the per-character quote-escaping map. -/
theorem pyReplaceAll_quote (l : List Char) :
    pyReplaceAll l [Char.ofNat 34] [Char.ofNat 34, Char.ofNat 34] =
      (l.map escQuoteChar).join := by
  induction l with
  | nil => rw [pyReplaceAll]; rfl
  | cons c rest ih =>
      rw [pyReplaceAll]
      by_cases hc : c = Char.ofNat 34
      · subst hc
        have hpre : [Char.ofNat 34].isPrefixOf (Char.ofNat 34 :: rest) = true := by
          simp [List.isPrefixOf]
        simp [hpre, escQuoteChar, ih]
      · have hpre : [Char.ofNat 34].isPrefixOf (c :: rest) = false := by
          simp [List.isPrefixOf]
          exact fun h => absurd h.symm hc
        simp [hpre, escQuoteChar, hc, ih]

/-- C8 (amended): `sql_identifier` in as-needed mode returns `s`
unchanged exactly when the regex matches, i.e. when the first character
of `s` is an ASCII letter or underscore — no reserved-word list is
consulted and characters after the first are never inspected; otherwise
it wraps `s` in double quotes with every embedded double quote doubled. -/
theorem c8_quoting_depends_on_first_char_only (s : String) :
    (unquotedIdentifierMatch s = true → sqlIdentifier s true = s) ∧
    (unquotedIdentifierMatch s = false →
      (sqlIdentifier s true).data =
        Char.ofNat 34 :: ((s.data.map escQuoteChar).join ++ [Char.ofNat 34])) := by
  constructor
  · intro h
    simp [sqlIdentifier, h]
  · intro h
    simp only [sqlIdentifier, h, Bool.and_false, Bool.false_eq_true, if_false]
    rw [String.data_append, String.data_append, pyReplaceAll_quote]
    rfl

/-- Witness for C8 (amended): `tbl` starts with a letter and stays
unquoted; `1x` starts with a digit and is quoted. -/
theorem c8_witness :
    (unquotedIdentifierMatch "tbl" = true ∧ sqlIdentifier "tbl" true = "tbl") ∧
    (unquotedIdentifierMatch "1x" = false ∧
      (sqlIdentifier "1x" true).data =
        Char.ofNat 34 :: ((("1x").data.map escQuoteChar).join ++ [Char.ofNat 34])) :=
  ⟨⟨rfl, (c8_quoting_depends_on_first_char_only "tbl").1 rfl⟩,
   ⟨rfl, (c8_quoting_depends_on_first_char_only "1x").2 rfl⟩⟩

/-- Helper: a successful `isPrefixOf` decomposes the list. -/
theorem eq_append_drop_of_isPrefixOf {pat s : List Char}
    (h : pat.isPrefixOf s = true) : s = pat ++ s.drop pat.length :=
  (List.prefix_iff_eq_append.mp (List.isPrefixOf_iff_prefix.mp h)).symm

/-- Helper: the one-shot replacement leaves the list unchanged exactly
when the pattern does not occur or coincides with the replacement. -/
theorem replaceOnceL_eq_self {s pat rep : List Char} (hp : pat ≠ []) :
    (replaceOnceL s pat rep = s) ↔ (occursL pat s = false ∨ pat = rep) := by
  induction s with
  | nil =>
      cases pat with
      | nil => exact absurd rfl hp
      | cons pc prest => simp [replaceOnceL, occursL, List.isPrefixOf]
  | cons c rest ih =>
      by_cases h : pat.isPrefixOf (c :: rest) = true
      · have hs : (c :: rest) = pat ++ (c :: rest).drop pat.length :=
          eq_append_drop_of_isPrefixOf h
        simp only [replaceOnceL, h, if_true]
        constructor
        · intro heq
          right
          exact (List.append_cancel_right (heq.trans hs)).symm
        · intro hor
          cases hor with
          | inl hocc =>
              rw [occursL, h] at hocc
              simp at hocc
          | inr hpr =>
              rw [← hpr]
              exact hs.symm
      · have hb : pat.isPrefixOf (c :: rest) = false := by
          revert h
          cases pat.isPrefixOf (c :: rest) <;> simp
        simp only [replaceOnceL, hb, Bool.false_eq_true, if_false, occursL,
          Bool.false_or, List.cons.injEq, true_and]
        exact ih

/-- C10 (amended): with both source texts present, rendering a
`ModifiedTable` raises exactly when the one-shot replacement leaves the
new table's SQL unchanged — that is, when the literal substring
`CREATE TABLE <raw name>` is absent, or when the raw name is exactly
`sqlitediff_temp` so that the replacement text coincides with the
target; otherwise only the first occurrence is rewritten and rendering
succeeds. -/
theorem c10_error_iff_replacement_noop (told tnew : Table) (refs : List String)
    (osql nsql : String) (ho : told.sql = some osql) (hn : tnew.sql = some nsql) :
    (isErr (Change.toSql (Change.modifiedTable told tnew refs)) = true ↔
      (occursSub ("CREATE TABLE " ++ tnew.raw_name) nsql = false ∨
        tnew.raw_name = "sqlitediff_temp")) := by
  have hp : ("CREATE TABLE " ++ tnew.raw_name).data ≠ [] := by
    rw [String.data_append]
    intro hh
    exact absurd (List.append_eq_nil.mp hh).1 (by decide)
  simp only [Change.toSql, ho, hn]
  split
  · next heq =>
      simp only [isErr, true_iff]
      have hdata : replaceOnceL nsql.data ("CREATE TABLE " ++ tnew.raw_name).data
          "CREATE TABLE sqlitediff_temp".data = nsql.data :=
        congrArg String.data heq
      rcases (replaceOnceL_eq_self hp).mp hdata with hocc | hrep
      · exact Or.inl hocc
      · right
        have hpat : ("CREATE TABLE " ++ tnew.raw_name) =
            ("CREATE TABLE sqlitediff_temp" : String) := String.ext hrep
        have : ("CREATE TABLE " ++ tnew.raw_name).data =
            ("CREATE TABLE " ++ ("sqlitediff_temp" : String)).data := by
          rw [hpat]
          rfl
        rw [String.data_append, String.data_append] at this
        exact String.ext (List.append_cancel_left this)
  · next hne =>
      simp only [isErr, Bool.false_eq_true, false_iff]
      intro hor
      apply hne
      apply String.ext
      apply (replaceOnceL_eq_self hp).mpr
      cases hor with
      | inl hocc => exact Or.inl hocc
      | inr hraw =>
          right
          show ("CREATE TABLE " ++ tnew.raw_name).data = _
          rw [hraw]
          rfl

/-- Witness for C10 (amended) at the `foo` recreation, where the
substring is present, the raw name differs from `sqlitediff_temp`, and
rendering therefore succeeds. -/
theorem c10_witness :
    isErr (Change.toSql (Change.modifiedTable fooOld fooNew [])) = true ↔
      (occursSub ("CREATE TABLE " ++ fooNew.raw_name) "CREATE TABLE foo (x TEXT)" = false ∨
        fooNew.raw_name = "sqlitediff_temp") :=
  c10_error_iff_replacement_noop fooOld fooNew [] "CREATE TABLE foo (x)"
    "CREATE TABLE foo (x TEXT)" rfl rfl

end SqliteDiff
